import Mathlib

/-!
Verification of the documentation-ingestion pipeline of smart-devtool.

Each Python module under src/backend/app is shallowly embedded as Lean
definitions, keeping the source structure and names.  External effects
(renderer, reasoning service, database rows, Redis) are passed in as explicit
values or oracle functions; machine strings are Lean strings; fallible Python
code (code that can raise) is embedded as Option-returning functions.
-/

set_option maxRecDepth 10000

namespace SmartDevtool

/-! ### Python string primitives

Helpers mirroring the Python string operations used by the sources.
Braces are written via Char.ofNat to keep them out of literals. -/

/-- The character left-brace. -/
def lbrace : Char := Char.ofNat 123

/-- The character right-brace. -/
def rbrace : Char := Char.ofNat 125

/-- Python s.lower() (ASCII). -/
def pyLower (s : String) : String := String.mk (s.data.map Char.toLower)

/-- Python s.upper() (ASCII). -/
def pyUpper (s : String) : String := String.mk (s.data.map Char.toUpper)

/-- Python `pat in s` substring test. -/
def containsSub (s pat : String) : Bool :=
  (s.data.tails).any (fun t => pat.data.isPrefixOf t)

/-- Python s.replace(old, new) for single characters. -/
def pyReplaceChar (s : String) (old new : Char) : String :=
  String.mk (s.data.map (fun c => if c = old then new else c))

/-- Python s.replace(old, "") for a single character: drops every occurrence. -/
def pyDropChar (s : String) (old : Char) : String :=
  String.mk (s.data.filter (fun c => c ≠ old))

/-- Python s.strip(ch): removes leading and trailing occurrences of ch. -/
def pyStrip (s : String) (ch : Char) : String :=
  String.mk (((s.data.dropWhile (fun c => c = ch)).reverse.dropWhile
    (fun c => c = ch)).reverse)

/-- One step of Python str.title(): upper-case a letter that follows a
non-letter, lower-case a letter that follows a letter. -/
def pyTitleGo : List Char → Bool → List Char
  | [], _ => []
  | c :: cs, prevAlpha =>
    if c.isAlpha then
      (if prevAlpha then c.toLower else c.toUpper) :: pyTitleGo cs true
    else
      c :: pyTitleGo cs false

/-- Python s.title() (ASCII). -/
def pyTitle (s : String) : String := String.mk (pyTitleGo s.data false)

/-- First index at which pat occurs as a sublist of s. -/
def findSubIdx (pat : List Char) : List Char → Option Nat
  | [] => if pat = [] then some 0 else none
  | c :: cs =>
    if pat.isPrefixOf (c :: cs) then some 0
    else (findSubIdx pat cs).map (· + 1)

/-- Index of the last occurrence of a character, if any. -/
def lastIdxOf (ch : Char) (cs : List Char) : Option Nat :=
  (cs.foldl (fun (st : Nat × Option Nat) c =>
    (st.1 + 1, if c = ch then some st.1 else st.2)) (0, none)).2

/-! ### urllib.parse fragments

Models of the pieces of Python urllib.parse used by the sources, restricted
to the strings the code feeds them (absolute URLs already resolved by
urljoin).  Following urlsplit: the scheme is the text before the first colon
when it is a valid scheme token; the netloc follows a double slash and runs
to the next slash, question mark or hash; the fragment is everything after
the first hash; the query sits between the first question mark and the
fragment. -/

/-- Valid Python URL scheme token: a letter followed by letters, digits,
plus, minus or dot. -/
def validScheme : List Char → Bool
  | [] => false
  | c :: rest => c.isAlpha && rest.all (fun d => d.isAlphanum || d = '+' || d = '-' || d = '.')

/-- Remainder of the URL once a valid scheme and its colon are removed
(the whole string when there is no valid scheme). -/
def afterScheme (cs : List Char) : List Char :=
  let before := cs.takeWhile (fun c => c ≠ ':')
  if cs.any (fun c => c = ':') && validScheme before then
    (cs.dropWhile (fun c => c ≠ ':')).tail
  else cs

/-- urlparse(s).scheme : lower-cased valid scheme token, else empty. -/
def schemeOf (s : String) : String :=
  let before := s.data.takeWhile (fun c => c ≠ ':')
  if s.data.any (fun c => c = ':') && validScheme before then
    String.mk (before.map Char.toLower)
  else ""

/-- urlparse(s).netloc : text after a leading double slash of the
scheme-stripped remainder, up to the next slash, question mark or hash. -/
def netlocOf (s : String) : String :=
  match afterScheme s.data with
  | c1 :: c2 :: rest =>
    if c1 = '/' && c2 = '/' then
      String.mk (rest.takeWhile (fun c => c ≠ '/' && c ≠ '?' && c ≠ '#'))
    else ""
  | _ => ""

/-- urlparse(s).fragment : everything after the first hash, else empty. -/
def fragmentOf (s : String) : String :=
  String.mk ((s.data.dropWhile (fun c => c ≠ '#')).tail)

/-- urlparse(s).query : text after the first question mark of the
pre-fragment part. -/
def queryOf (s : String) : String :=
  String.mk (((s.data.takeWhile (fun c => c ≠ '#')).dropWhile (fun c => c ≠ '?')).tail)

/-- Python href.split("?")[0] : the text before the first question mark. -/
def stripQuery (s : String) : String :=
  String.mk (s.data.takeWhile (fun c => c ≠ '?'))

/-! ### Python values and json.loads

json.loads hands the sources a Python object: None, a bool, a number, a
str, a list, or a dict.  PyVal models that result; numbers keep their
source text, since the sources never compute with parsed numbers, they
only compare and copy structured values.  Dict entry lists are in
first-insertion order with a later duplicate key overwriting in place, as
Python dicts behave. -/

/-- The Python value json.loads produces. -/
inductive PyVal where
  | pyNone : PyVal
  | pyBool : Bool → PyVal
  | pyNum : String → PyVal
  | pyStr : String → PyVal
  | pyList : List PyVal → PyVal
  | pyDict : List (String × PyVal) → PyVal

/-- d[k] = v on an entry list: an existing key keeps its position but
takes the new value, a new key goes to the end. -/
def dictPut (entries : List (String × PyVal)) (k : String) (v : PyVal) :
    List (String × PyVal) :=
  if entries.any (fun kv => kv.1 = k) then
    entries.map (fun kv => if kv.1 = k then (k, v) else kv)
  else entries.concat (k, v)

/-- JSON inter-token whitespace. -/
def pyWs (c : Char) : Bool := c ∈ [' ', '\t', '\n', '\r']

/-- Drop inter-token whitespace. -/
def lexWs (cs : List Char) : List Char := cs.dropWhile pyWs

/-- The value of one hexadecimal digit. -/
def hexDigit (c : Char) : Option Nat :=
  let lowered := c.toLower
  if c.isDigit then some (c.toNat - 48)
  else if 'a' ≤ lowered && lowered ≤ 'f' then some (lowered.toNat - 97 + 10)
  else none

/-- Single-character JSON string escapes (backslash-u is handled apart). -/
def escapeChar (e : Char) : Option Char :=
  [('\"', '\"'), ('\\', '\\'), ('/', '/'), ('n', '\n'), ('t', '\t'),
   ('r', '\r'), ('b', Char.ofNat 8), ('f', Char.ofNat 12)].lookup e

/-- Scan a JSON string after its opening quote, resolving escapes;
returns the denoted string with the input left after the closing quote. -/
def lexString (acc : List Char) : List Char → Option (String × List Char)
  | [] => none
  | '\"' :: more => some (String.mk acc.reverse, more)
  | '\\' :: 'u' :: h1 :: h2 :: h3 :: h4 :: more =>
    match hexDigit h1, hexDigit h2, hexDigit h3, hexDigit h4 with
    | some a, some b, some c, some d =>
      lexString (Char.ofNat (a * 4096 + b * 256 + c * 16 + d) :: acc) more
    | _, _, _, _ => none
  | '\\' :: e :: more =>
    match escapeChar e with
    | some c => lexString (c :: acc) more
    | none => none
  | c :: more => lexString (c :: acc) more

/-- Characters a JSON number literal is made of. -/
def numChar (c : Char) : Bool :=
  c.isDigit || c ∈ ['-', '+', '.', 'e', 'E']

mutual

/-- Read one JSON value off the input; the fuel only pads recursion and
exceeds any document's size at the top-level call. -/
def readValue : Nat → List Char → Option (PyVal × List Char)
  | 0, _ => none
  | fuel + 1, cs =>
    match lexWs cs with
    | [] => none
    | c :: rest =>
      if c = '\"' then
        (lexString [] rest).map (fun out => (PyVal.pyStr out.1, out.2))
      else if ['t', 'r', 'u', 'e'].isPrefixOf (c :: rest) then
        some (PyVal.pyBool true, (c :: rest).drop 4)
      else if ['f', 'a', 'l', 's', 'e'].isPrefixOf (c :: rest) then
        some (PyVal.pyBool false, (c :: rest).drop 5)
      else if ['n', 'u', 'l', 'l'].isPrefixOf (c :: rest) then
        some (PyVal.pyNone, (c :: rest).drop 4)
      else if numChar c then
        some (PyVal.pyNum (String.mk ((c :: rest).takeWhile numChar)),
          (c :: rest).dropWhile numChar)
      else if c = lbrace then
        match lexWs rest with
        | d :: after =>
          if d = rbrace then some (PyVal.pyDict [], after)
          else readDictRest fuel (lexWs rest) []
        | [] => none
      else if c = '[' then
        match lexWs rest with
        | d :: after =>
          if d = ']' then some (PyVal.pyList [], after)
          else readListRest fuel (lexWs rest) []
        | [] => none
      else none

/-- Read the entries of a non-empty dict body, the opening brace already
consumed. -/
def readDictRest : Nat → List Char → List (String × PyVal) →
    Option (PyVal × List Char)
  | 0, _, _ => none
  | fuel + 1, cs, entries =>
    match lexWs cs with
    | '\"' :: afterQuote =>
      match lexString [] afterQuote with
      | none => none
      | some (key, afterKey) =>
        match lexWs afterKey with
        | ':' :: afterColon =>
          match readValue fuel afterColon with
          | none => none
          | some (v, afterVal) =>
            match lexWs afterVal with
            | ',' :: more => readDictRest fuel more (dictPut entries key v)
            | d :: more =>
              if d = rbrace then some (PyVal.pyDict (dictPut entries key v), more)
              else none
            | [] => none
        | _ => none
    | _ => none

/-- Read the elements of a non-empty list body, the opening bracket
already consumed. -/
def readListRest : Nat → List Char → List PyVal → Option (PyVal × List Char)
  | 0, _, _ => none
  | fuel + 1, cs, items =>
    match readValue fuel cs with
    | none => none
    | some (v, afterVal) =>
      match lexWs afterVal with
      | ',' :: more => readListRest fuel more (items.concat v)
      | ']' :: more => some (PyVal.pyList (items.concat v), more)
      | _ => none

end

/-- Python json.loads: exactly one JSON document with only whitespace
around it; none models a raised JSONDecodeError. -/
def json_loads (s : String) : Option PyVal :=
  match readValue (s.data.length + 1) s.data with
  | some (v, rest) => if lexWs rest = [] then some v else none
  | none => none

/-! ### Entity model (services/llm_parser.py, pydantic models)

The pydantic models, with their field defaults.  A constructor argument of
the wrong shape makes pydantic raise, embedded below as Option results. -/

/-- services/llm_parser.py Parameter. -/
structure Parameter where
  name : String
  location : String
  type : String
  required : Bool := false
  description : String := ""

/-- services/llm_parser.py Endpoint.  request_body and response_schema are
opaque structured values (dict fields). -/
structure Endpoint where
  path : String
  method : String
  summary : String := ""
  description : String := ""
  parameters : List Parameter := []
  request_body : PyVal := PyVal.pyDict []
  response_schema : PyVal := PyVal.pyDict []
  tags : List String := []

/-- services/llm_parser.py AuthScheme. -/
structure AuthScheme where
  type : String
  header_name : String := ""
  description : String := ""

/-- services/llm_parser.py APISchema. -/
structure APISchema where
  api_name : String := ""
  base_url : String := ""
  version : String := ""
  description : String := ""
  auth : AuthScheme := { type := "none" }
  endpoints : List Endpoint := []

/-- services/llm_parser.py IntegrationSuggestion (the dict shape built by
suggest_integration_paths). -/
structure IntegrationSuggestion where
  approach : String
  language : String := ""
  reasoning : String := ""
  recommended_libraries : List String := []
  code_snippet : String := ""
  is_recommended : Bool := false

/-! ### Python dict / pydantic access on PyVal values -/

/-- The member list of a dict; none models the TypeError or AttributeError
Python raises when the value is not a dict (.items(), .get). -/
def asObj : PyVal → Option (List (String × PyVal))
  | PyVal.pyDict kvs => some kvs
  | _ => none

/-- Python d.get(key, dflt): requires d to be a dict. -/
def jGetD (j : PyVal) (key : String) (dflt : PyVal) : Option PyVal :=
  (asObj j).map (fun kvs => ((kvs.lookup key).getD dflt))

/-- Python d.get(key): requires d to be a dict; missing key gives None. -/
def jGetOpt (j : PyVal) (key : String) : Option (Option PyVal) :=
  (asObj j).map (fun kvs => kvs.lookup key)

/-- Is this optional PyVal value the given string?  (Python == against a
str literal; a missing value or a non-string compares unequal.) -/
def jEqStr : Option PyVal → String → Bool
  | some (PyVal.pyStr s), t => s = t
  | _, _ => false

/-- pydantic str field validation: only a string is accepted. -/
def asStr : PyVal → Option String
  | PyVal.pyStr s => some s
  | _ => none

/-- pydantic bool field validation. -/
def asBool : PyVal → Option Bool
  | PyVal.pyBool b => some b
  | _ => none

/-- pydantic dict field validation. -/
def asDict (j : PyVal) : Option PyVal :=
  match j with
  | PyVal.pyDict _ => some j
  | _ => none

/-- pydantic list[str] field validation. -/
def asStrList : PyVal → Option (List String)
  | PyVal.pyList xs => xs.mapM asStr
  | _ => none

/-- Python iteration (for x in v): a list yields its elements, a string its
characters, a dict its keys; anything else raises. -/
def pyIter : PyVal → Option (List PyVal)
  | PyVal.pyList xs => some xs
  | PyVal.pyStr s => some (s.data.map (fun c => PyVal.pyStr (String.mk [c])))
  | PyVal.pyDict kvs => some (kvs.map (fun kv => PyVal.pyStr kv.1))
  | _ => none

/-! ### services/llm_parser.py : chunking, merge, direct OpenAPI parse -/

/-- Index of the last newline as Python rfind (-1 when absent). -/
def rfindNewline (cs : List Char) : Int :=
  match lastIdxOf '\n' cs with
  | some i => (i : Int)
  | none => -1

/-- The while-loop of chunk_text.  Fuel only pads termination: every
executed iteration consumes at least one character for max_chars > 0. -/
def chunk_text_go : Nat → List Char → Nat → List String → List String
  | 0, _, _, acc => acc
  | _, [], _, acc => acc
  | fuel + 1, text, max_chars, acc =>
    let chunk0 := text.take max_chars
    let last_newline := rfindNewline chunk0
    let chunk :=
      if last_newline > (max_chars : Int) * 8 / 10 then chunk0.take last_newline.toNat
      else chunk0
    chunk_text_go fuel (text.drop chunk.length) max_chars (acc ++ [String.mk chunk])

/-- services/llm_parser.py chunk_text: split large docs into chunks,
breaking at a late newline when one falls in the last fifth of the budget
(the 0.8 float threshold is exact on integers). -/
def chunk_text (text : String) (max_chars : Nat := 12000) : List String :=
  if text.data.length ≤ max_chars then [text]
  else chunk_text_go (text.data.length + 1) text.data max_chars []

/-- Appending one endpoint unless its (path, method) identity is already
present: the body of the merge loop, where the Python running set
`existing` always equals the identity set of the accumulated list. -/
def insert_endpoint (eps : List Endpoint) (e : Endpoint) : List Endpoint :=
  if eps.any (fun x => x.path = e.path && x.method = e.method) then eps
  else eps ++ [e]

/-- services/llm_parser.py merge_schemas: the first chunk result is taken
whole (metadata and endpoint list); endpoints of later chunks are appended
when their (path, method) is not already present. -/
def merge_schemas (schemas : List APISchema) : APISchema :=
  match schemas with
  | [] => {}
  | merged :: rest =>
    rest.foldl
      (fun m s => { m with endpoints := s.endpoints.foldl insert_endpoint m.endpoints })
      merged

/-- Recognized HTTP methods of the direct-spec path. -/
def recognizedMethods : List String :=
  ["GET", "POST", "PUT", "DELETE", "PATCH", "HEAD", "OPTIONS"]

/-- The auth-detection loop of parse_openapi_spec over securitySchemes:
later matching schemes overwrite earlier ones; a non-dict scheme raises. -/
def detect_auth (security_schemes : List (String × PyVal)) : Option AuthScheme :=
  security_schemes.foldlM
    (fun auth kv => do
      let scheme_name := kv.1
      let scheme := kv.2
      let tOpt ← jGetOpt scheme "type"
      let sOpt ← jGetOpt scheme "scheme"
      if jEqStr tOpt "http" && jEqStr sOpt "bearer" then
        pure { type := "bearer", header_name := "Authorization",
               description := "Bearer token via " ++ scheme_name }
      else if jEqStr tOpt "apiKey" then do
        let hn ← asStr (← jGetD scheme "name" (PyVal.pyStr "X-API-Key"))
        pure { type := "api_key", header_name := hn,
               description := "API Key via " ++ scheme_name }
      else pure auth)
    { type := "none" }

/-- Building one Parameter of the direct-spec path. -/
def mkParameter (p : PyVal) : Option Parameter := do
  let schemaJ ← jGetD p "schema" (PyVal.pyDict [])
  let name ← asStr (← jGetD p "name" (PyVal.pyStr ""))
  let location ← asStr (← jGetD p "in" (PyVal.pyStr "query"))
  let ty ← asStr (← jGetD schemaJ "type" (PyVal.pyStr "string"))
  let required ← asBool (← jGetD p "required" (PyVal.pyBool false))
  let descr ← asStr (← jGetD p "description" (PyVal.pyStr ""))
  pure { name := name, location := location, type := ty,
         required := required, description := descr }

/-- Building one Endpoint of the direct-spec path. -/
def mkEndpoint (path method : String) (operation : PyVal) : Option Endpoint := do
  let ps ← pyIter (← jGetD operation "parameters" (PyVal.pyList []))
  let parameters ← ps.mapM mkParameter
  let summary ← asStr (← jGetD operation "summary" (PyVal.pyStr ""))
  let descr ← asStr (← jGetD operation "description" (PyVal.pyStr ""))
  let request_body ← asDict (← jGetD operation "requestBody" (PyVal.pyDict []))
  let response_schema ← asDict (← jGetD operation "responses" (PyVal.pyDict []))
  let tags ← asStrList (← jGetD operation "tags" (PyVal.pyList []))
  pure { path := path, method := method, summary := summary,
         description := descr, parameters := parameters,
         request_body := request_body, response_schema := response_schema,
         tags := tags }

/-- services/llm_parser.py parse_openapi_spec: direct parse of an embedded
OpenAPI or Swagger spec; none models any raised exception (which the caller
turns into the reasoning-service fallback). -/
def parse_openapi_spec (spec : PyVal) (base_url : String) : Option APISchema := do
  let infoJ ← jGetD spec "info" (PyVal.pyDict [])
  let compJ ← jGetD spec "components" (PyVal.pyDict [])
  let ss ← asObj (← jGetD compJ "securitySchemes" (PyVal.pyDict []))
  let auth ← detect_auth ss
  let paths ← asObj (← jGetD spec "paths" (PyVal.pyDict []))
  let endpoints ← paths.foldlM
    (fun acc pv => do
      let items ← asObj pv.2
      items.foldlM
        (fun acc2 mo =>
          if pyUpper mo.1 ∈ recognizedMethods then do
            let ep ← mkEndpoint pv.1 (pyUpper mo.1) mo.2
            pure (acc2 ++ [ep])
          else pure acc2)
        acc)
    []
  let api_name ← asStr (← jGetD infoJ "title" (PyVal.pyStr ""))
  let version ← asStr (← jGetD infoJ "version" (PyVal.pyStr ""))
  let descr ← asStr (← jGetD infoJ "description" (PyVal.pyStr ""))
  pure { api_name := api_name, base_url := base_url, version := version,
         description := descr, auth := auth, endpoints := endpoints }

/-- The quoted literal openapi as a character list. -/
def openapiLit : List Char := '\"' :: "openapi".data ++ ['\"']

/-- The quoted literal paths as a character list. -/
def pathsLit : List Char := '\"' :: "paths".data ++ ['\"']

/-- The fast-path regex of parse_documentation: an open brace, then the
quoted words openapi and paths in order, then a close brace, with anything
between.  The leftmost match starts at the first open brace (earlier starts
only relax the ordering constraints) and, the trailing star being greedy,
ends at the last close brace of the text.  Returns the matched substring. -/
def openapi_fast_path (s : String) : Option String :=
  let cs := s.data
  match cs.findIdx? (fun c => c = lbrace) with
  | none => none
  | some i =>
    let t1 := cs.drop (i + 1)
    match findSubIdx openapiLit t1 with
    | none => none
    | some j =>
      let t2 := t1.drop (j + openapiLit.length)
      match findSubIdx pathsLit t2 with
      | none => none
      | some k =>
        let t3 := t2.drop (k + pathsLit.length)
        if t3.any (fun c => c = rbrace) then
          match lastIdxOf rbrace cs with
          | some e => some (String.mk ((cs.drop i).take (e - i + 1)))
          | none => none
        else none

/-- services/llm_parser.py parse_documentation.  The external reasoning
service is an oracle giving, per chunk index, the schema parsed from its
response (none = unparseable response or call error: that chunk is
dropped).  The Bool is true exactly when the reasoning-service path ran. -/
def parse_documentation (markdown_content : String) (base_url : String)
    (llm : Nat → Option APISchema) : APISchema × Bool :=
  let llm_path : APISchema × Bool :=
    let chunks := chunk_text markdown_content
    let schemas := (List.range chunks.length).filterMap llm
    let merged := merge_schemas schemas
    let merged :=
      if base_url ≠ "" && merged.base_url = "" then
        { merged with base_url := base_url }
      else merged
    (merged, true)
  match openapi_fast_path markdown_content with
  | some matched =>
    match json_loads matched with
    | some spec =>
      match parse_openapi_spec spec base_url with
      | some s => (s, false)
      | none => llm_path
    | none => llm_path
  | none => llm_path

/-! ### services/llm_parser.py : suggest_integration_paths -/

/-- Keyword detection of a preferred language from the lowered use case:
the first matching category wins. -/
def detect_language (use_case_lower : String) : Option String :=
  if ["python", "django", "flask", "fastapi"].any (fun w => containsSub use_case_lower w) then
    some "python"
  else if ["javascript", "typescript", "node", "react", "next", "js", "ts"].any
      (fun w => containsSub use_case_lower w) then
    some "typescript"
  else if ["go", "golang"].any (fun w => containsSub use_case_lower w) then
    some "go"
  else if ["java", "spring"].any (fun w => containsSub use_case_lower w) then
    some "java"
  else none

/-- services/llm_parser.py suggest_integration_paths, a pure function of
the schema and use case. -/
def suggest_integration_paths (api_schema : APISchema) (use_case : String) :
    List IntegrationSuggestion :=
  let use_case_lower := pyLower use_case
  let preferred_language := detect_language use_case_lower
  let auth_type := api_schema.auth.type
  let first_ep := api_schema.endpoints.head?
  let nameNS := pyDropChar api_schema.api_name ' '
  let python_libs :=
    ["httpx", "requests"] ++
      (if auth_type = "bearer" then ["python-jose"]
       else if auth_type = "oauth2" then ["requests-oauthlib", "authlib"]
       else [])
  let pythonSug : IntegrationSuggestion :=
    { approach := "Generated Python SDK"
      language := "Python"
      reasoning :=
        if use_case ≠ "" then
          "Matches your use case: \x27" ++ use_case ++
            "\x27. Best for scripting, bots, and data pipelines. " ++
            "The auto-generated client handles " ++ auth_type ++ " auth automatically."
        else "Best for scripting and data pipelines."
      recommended_libraries := python_libs
      code_snippet :=
        match first_ep with
        | some ep =>
          "from " ++ pyLower nameNS ++ "_client import " ++ nameNS ++ "Client\n\n" ++
            "client = " ++ nameNS ++ "Client()\n" ++
            "result = client.get_" ++ pyReplaceChar (pyStrip ep.path '/') '/' '_' ++ "()\n" ++
            "print(result)"
        | none => ""
      is_recommended := preferred_language = some "python" || preferred_language = none }
  let tsName := if containsSub use_case_lower "typescript" then "TypeScript" else "JavaScript"
  let tsSug : IntegrationSuggestion :=
    { approach := "Generated " ++ tsName ++ " SDK"
      language := tsName
      reasoning :=
        if use_case ≠ "" then
          "Matches your use case: \x27" ++ use_case ++
            "\x27. Perfect for Node.js bots, Express backends, and React frontends. " ++
            "Fully typed client prevents runtime errors."
        else "Best for Node.js and frontend applications."
      recommended_libraries := ["fetch API (built-in)", "axios"]
      code_snippet :=
        match first_ep with
        | some ep =>
          "import \x7b " ++ nameNS ++ "Client \x7d from \x27./" ++ pyLower nameNS ++
            "_client\x27;\n\n" ++
            "const client = new " ++ nameNS ++ "Client();\n" ++
            "const result = await client.get" ++ pyTitle (pyStrip ep.path '/') ++ "();\n" ++
            "console.log(result);"
        | none => ""
      is_recommended := preferred_language = some "typescript" ||
        preferred_language = some "javascript" }
  let restSug : IntegrationSuggestion :=
    { approach := "Direct REST calls"
      language := "Any"
      reasoning := "Maximum flexibility. Use when you only need 1-2 endpoints or want full control over the HTTP layer."
      recommended_libraries := ["curl", "httpx", "fetch"]
      code_snippet :=
        match first_ep with
        | some ep => "curl -X GET \x27" ++ api_schema.base_url ++ ep.path ++ "\x27"
        | none => ""
      is_recommended := false }
  let base :=
    (if preferred_language = some "python" || preferred_language = none then [pythonSug] else [])
    ++ (if preferred_language = some "typescript" || preferred_language = some "javascript" ||
          preferred_language = none then [tsSug] else [])
    ++ [restSug]
  if preferred_language = some "go" || preferred_language = some "java" then
    let lang := (preferred_language.getD "")
    let noteSug : IntegrationSuggestion :=
      { approach := pyTitle lang ++ " Integration"
        language := pyTitle lang
        reasoning := "Detected " ++ pyTitle lang ++
          " preference from your use case. Use the OpenAPI export to generate a " ++
          pyTitle lang ++ " client with your preferred generator."
        recommended_libraries :=
          if lang = "go" then ["go-resty", "net/http"]
          else ["OkHttp", "Retrofit", "Spring WebClient"]
        code_snippet := "# Export OpenAPI spec and use your preferred code generator"
        is_recommended := true }
    noteSug :: base
  else base

/-! ### services/scraper.py

The renderer plus per-page normalization is abstracted as a fetch oracle:
for a URL it either yields the page (its markdown and the already extracted
child links) or a fetch error.  The link-extraction loop of scrape_page is
embedded separately over the urljoin-resolved anchor targets, since the
HTML parsing and urljoin live in external libraries. -/

/-- services/scraper.py ScrapeResult. -/
structure ScrapeResult where
  url : String
  markdown : String
  child_urls : List String := []
  error : Option String := none

/-- The outcome of rendering and normalizing one page: markdown plus
resolved child links on success, an error message on failure. -/
abbrev FetchFn := String → (String × List String) ⊕ String

/-- scrape_page as seen by the crawl loop: a success keeps the produced
markdown and links, a failure keeps the error with empty content (source
lines 72 and 76). -/
def scrape_page_model (fetch : FetchFn) (url : String) : ScrapeResult :=
  match fetch url with
  | Sum.inl r => { url := url, markdown := r.1, child_urls := r.2 }
  | Sum.inr e => { url := url, markdown := "", error := some e }

/-- One anchor of the link-extraction loop of scrape_page (lines 62-69):
keep a same-domain link with an empty fragment, strip its query, skip the
page itself and duplicates.  base_domain of the source is netlocOf url. -/
def link_step (url : String) (child_urls : List String) (href : String) :
    List String :=
  if netlocOf href = netlocOf url && fragmentOf href = "" then
    let clean := stripQuery href
    if clean ≠ url ∧ clean ∉ child_urls then child_urls ++ [clean]
    else child_urls
  else child_urls

/-- The link-extraction loop of scrape_page (lines 60-69) over the
urljoin-resolved anchor targets. -/
def extract_child_urls (url : String) (resolved_hrefs : List String) : List String :=
  resolved_hrefs.foldl (link_step url) []

/-- The body of the while-loop of scrape_docs applied to one batch of
results: add each URL to the visited set; keep error-free results and
append their unseen, unqueued children to the queue. -/
def process_batch :
    List ScrapeResult → List String → List String → List ScrapeResult →
      List String × List String × List ScrapeResult
  | [], visited, queue, results => (visited, queue, results)
  | r :: rs, visited, queue, results =>
    let visited2 := if r.url ∈ visited then visited else visited ++ [r.url]
    match r.error with
    | none =>
      let queue2 := r.child_urls.foldl
        (fun q child => if child ∉ visited2 ∧ child ∉ q then q ++ [child] else q)
        queue
      process_batch rs visited2 queue2 (results ++ [r])
    | some _ => process_batch rs visited2 queue results

/-- The while-loop of scrape_docs: drain the queue in batches of three
while fewer than max_pages URLs are visited.  Fuel pads termination; every
executed iteration either grows the visited set or shrinks the queue, so a
large enough fuel reaches the loop exit. -/
def scrape_docs_loop (fetch : FetchFn) (max_pages : Nat) :
    Nat → List String → List String → List ScrapeResult →
      List String × List ScrapeResult
  | 0, visited, _, results => (visited, results)
  | fuel + 1, visited, queue, results =>
    if queue ≠ [] ∧ visited.length < max_pages then
      let batch := queue.take 3
      let rest := queue.drop 3
      let tasks := batch.filter (fun u => u ∉ visited)
      let batch_results := tasks.map (scrape_page_model fetch)
      let st := process_batch batch_results visited rest results
      scrape_docs_loop fetch max_pages fuel st.1 st.2.1 st.2.2
    else (visited, results)

/-- services/scraper.py scrape_docs.  Returns the final visited set next to
the result list the source returns, so that properties of the visited set
can be stated. -/
def scrape_docs (fetch : FetchFn) (base_url : String) (max_pages : Nat)
    (fuel : Nat) : List String × List ScrapeResult :=
  scrape_docs_loop fetch max_pages fuel [] [base_url] []

/-! ### core/log_store.py

subscribe first replays every stored message without inspecting it, then
consumes newly queued messages until one equals a terminal sentinel.  A
subscriber is modeled by the stored messages at subscription time and the
finite list of messages queued afterwards; the Bool tells whether the
generator terminated (broke out of its loop).  When it is false the
generator instead keeps yielding ping heartbeats every 30 seconds, which
the model leaves out of the message list. -/

/-- The two terminal sentinels of the job pipeline. -/
def is_terminal (m : String) : Bool := m = "DONE" || m = "FAILED"

/-- SSE framing of one message (data: prelude and blank line). -/
def sse (m : String) : String := "data: " ++ m ++ "\n\n"

/-- The post-replay loop: yield queued messages, stopping after the first
terminal sentinel; false means the loop never broke. -/
def live_until_terminal : List String → List String × Bool
  | [] => ([], false)
  | m :: ms =>
    if is_terminal m then ([m], true)
    else
      let r := live_until_terminal ms
      (m :: r.1, r.2)

/-- core/log_store.py subscribe: all messages the subscriber receives (in
SSE framing, heartbeats left out) and whether the stream closed. -/
def subscribe_stream (prior live : List String) : List String × Bool :=
  let replay := prior.map sse
  let rest := live_until_terminal live
  (replay ++ rest.1.map sse, rest.2)

/-! ### core/rate_limiter.py

The Redis sorted set behind one rate-limit key is a set of integer scores:
members are str(now) so two hits in the same second collapse to one entry.
A store value of none models any Redis failure. -/

/-- core/rate_limiter.py check_rate_limit: returns ((allowed, retry_after),
updated store).  The pipeline removes scores in [0, now - window], counts
what remains, then records now; denial reports the full window. -/
def check_rate_limit (store : Option (List Int)) (now : Int) (limit : Nat)
    (window_seconds : Int) : (Bool × Int) × Option (List Int) :=
  match store with
  | none => ((true, 0), none)
  | some entries =>
    let window_start := now - window_seconds
    let kept := entries.filter (fun t => ¬(0 ≤ t ∧ t ≤ window_start))
    let count := kept.length
    let updated := if now ∈ kept then kept else kept ++ [now]
    if count ≥ limit then ((false, window_seconds), some updated)
    else ((true, 0), some updated)

/-! ### models/project.py and api/v1/projects.py

Project rows are the fields create_project and the job runner touch; the
database is a row list in insertion order.  Times are epoch seconds. -/

/-- models/project.py ProjectStatus. -/
inductive ProjectStatus where
  | PENDING
  | SCRAPING
  | PARSING
  | COMPLETED
  | FAILED
deriving DecidableEq

/-- The Project columns used by the cache check and the job runner. -/
structure Project where
  id : Nat
  name : String
  base_url : String
  status : ProjectStatus := ProjectStatus.PENDING
  use_case : String
  created_at : Int

/-- schemas/project.py ProjectCreate payload. -/
structure ProjectCreate where
  url : String
  name : String
  use_case : String
  force_refresh : Bool := false

/-- The normalized base URL of create_project:
scheme://netloc of the payload URL. -/
def normalize_base_url (url : String) : String :=
  schemeOf url ++ "://" ++ netlocOf url

/-- Row eligibility of the cache query: same base URL, COMPLETED, created
within the last 24 hours. -/
def cacheEligible (b : String) (now : Int) (p : Project) : Bool :=
  p.base_url = b && p.status = ProjectStatus.COMPLETED &&
    now - 86400 ≤ p.created_at

/-- Keep the newer of the running best row and the next row. -/
def latestOf (acc : Option Project) (p : Project) : Option Project :=
  match acc with
  | none => some p
  | some q => if q.created_at < p.created_at then some p else acc

/-- order_by created_at desc, limit 1: the row with the greatest
created_at; the earliest row wins a tie, the database order among equal
keys being unspecified. -/
def pickLatest (rows : List Project) : Option Project :=
  rows.foldl latestOf none

/-- The cache query of create_project (lines 129-136). -/
def cacheLookup (db : List Project) (b : String) (now : Int) : Option Project :=
  pickLatest (db.filter (cacheEligible b now))

/-- api/v1/projects.py create_project after admission: on a cache hit the
existing completed row is returned with only name and use_case updated; on
a miss a new PENDING row is appended (created_at defaults to now) and the
pipeline is scheduled for it.  Returns the response row and the new
database. -/
def create_project (db : List Project) (payload : ProjectCreate) (now : Int)
    (fresh_id : Nat) : Project × List Project :=
  let api_base_url := normalize_base_url payload.url
  let freshCreate : Project × List Project :=
    let p : Project :=
      { id := fresh_id, name := payload.name, base_url := api_base_url,
        use_case := payload.use_case, created_at := now }
    (p, db ++ [p])
  if payload.force_refresh = false then
    match cacheLookup db api_base_url now with
    | some cached =>
      let updated := { cached with name := payload.name, use_case := payload.use_case }
      (updated, db.map (fun p => if p.id = cached.id then updated else p))
    | none => freshCreate
  else freshCreate

/-- A status update committed by the job runner. -/
def set_status (db : List Project) (pid : Nat) (st : ProjectStatus) :
    List Project :=
  db.map (fun p => if p.id = pid then { p with status := st } else p)

/-- The failure points of run_scrape_and_parse_job, in program order.  Each
Bool is true when that step succeeds; the two Options carry the value of an
await that can raise (none = raised).  Steps the embedding proves total
(append_log, building combined_markdown, suggest_integration_paths) are not
failure points.  fail_update_ok is true when the except-block refetch finds
the row and its FAILED commit succeeds. -/
structure JobEnv where
  fetch_ok : Bool := true
  commit_scraping_ok : Bool := true
  scrape : Option (List ScrapeResult) := some []
  commit_raw_ok : Bool := true
  commit_parsing_ok : Bool := true
  parse : Option APISchema := some {}
  commit_suggestions_ok : Bool := true
  commit_completed_ok : Bool := true
  fail_update_ok : Bool := true

/-- api/v1/projects.py run_scrape_and_parse_job as the sequence of statuses
the persisted row goes through, starting from PENDING.  A status appears
when its commit succeeds; any raise runs the except block, which appends
FAILED when the refetch and commit succeed.  The scrape result feeds
combined_markdown and the parser but never branches the control flow: no
emptiness check exists in the source. -/
def runJobTrace (env : JobEnv) : List ProjectStatus :=
  let failTail : List ProjectStatus :=
    if env.fail_update_ok then [ProjectStatus.FAILED] else []
  if env.fetch_ok = false then [ProjectStatus.PENDING] ++ failTail
  else if env.commit_scraping_ok = false then [ProjectStatus.PENDING] ++ failTail
  else
    match env.scrape with
    | none => [ProjectStatus.PENDING, ProjectStatus.SCRAPING] ++ failTail
    | some _pages =>
      if env.commit_raw_ok = false then
        [ProjectStatus.PENDING, ProjectStatus.SCRAPING] ++ failTail
      else if env.commit_parsing_ok = false then
        [ProjectStatus.PENDING, ProjectStatus.SCRAPING] ++ failTail
      else
        match env.parse with
        | none =>
          [ProjectStatus.PENDING, ProjectStatus.SCRAPING, ProjectStatus.PARSING] ++ failTail
        | some _schema =>
          if env.commit_suggestions_ok = false then
            [ProjectStatus.PENDING, ProjectStatus.SCRAPING, ProjectStatus.PARSING] ++ failTail
          else if env.commit_completed_ok = false then
            [ProjectStatus.PENDING, ProjectStatus.SCRAPING, ProjectStatus.PARSING] ++ failTail
          else
            [ProjectStatus.PENDING, ProjectStatus.SCRAPING, ProjectStatus.PARSING,
             ProjectStatus.COMPLETED]

/-- Rank of the forward pipeline states (FAILED handled separately). -/
def statusRank : ProjectStatus → Nat
  | ProjectStatus.PENDING => 0
  | ProjectStatus.SCRAPING => 1
  | ProjectStatus.PARSING => 2
  | ProjectStatus.COMPLETED => 3
  | ProjectStatus.FAILED => 4

/-- One legal forward transition: never out of a terminal state, and
either into FAILED or strictly up the pipeline order. -/
def forwardStep (a b : ProjectStatus) : Bool :=
  ¬(a = ProjectStatus.COMPLETED) && ¬(a = ProjectStatus.FAILED) &&
    (b = ProjectStatus.FAILED || statusRank a < statusRank b)

/-- Every consecutive pair of a trace is a legal forward transition. -/
def chainForward : List ProjectStatus → Bool
  | [] => true
  | [_] => true
  | a :: b :: rest => forwardStep a b && chainForward (b :: rest)

/-! ## Claims -/

/-- The combined text of the C2 scenario: exactly the embedded OpenAPI
document with one path and one operation. -/
def specC2 : String :=
  "\x7b\"openapi\": \"3.0.0\", \"paths\": \x7b\"/x\": \x7b\"get\": \x7b\x7d\x7d\x7d\x7d"

/-- C2: when the combined documentation text is exactly the one-path
OpenAPI document, extraction takes the direct-spec path (the reasoning
oracle is never consulted and the flag reports no external calls) and
returns an APISchema with exactly one endpoint, path /x and method GET,
and auth kind none. -/
theorem c2_direct_spec_path (base_url : String) (llm : Nat → Option APISchema) :
    parse_documentation specC2 base_url llm =
      ({ base_url := base_url, auth := { type := "none" },
         endpoints := [{ path := "/x", method := "GET" }] }, false) := rfl

/-- C4 counterexample: with every external step succeeding and the crawl
stage returning the empty result list, the job runs through to COMPLETED;
it never transitions to FAILED, contradicting the claim that an empty
crawl result is treated as pipeline failure. -/
theorem c4_counterexample :
    runJobTrace { scrape := some [] } =
      [ProjectStatus.PENDING, ProjectStatus.SCRAPING, ProjectStatus.PARSING,
       ProjectStatus.COMPLETED] ∧
    ProjectStatus.FAILED ∉ runJobTrace { scrape := some [] } := by
  exact ⟨rfl, by decide⟩

/-- C4 amended: the orchestrator never branches on the crawl result — the
status trace for a crawl returning any page list equals the trace for the
empty list, and in the all-success run with zero pages the job ends
COMPLETED.  (The claim said an empty crawl result must yield FAILED; the
code has no such check.) -/
theorem c4_empty_crawl_not_failure :
    (∀ (env : JobEnv) (pages : List ScrapeResult),
      runJobTrace { env with scrape := some pages } =
        runJobTrace { env with scrape := some [] })
    ∧ (runJobTrace { scrape := some [] }).getLast? = some ProjectStatus.COMPLETED := by
  refine ⟨fun env pages => rfl, rfl⟩

/-- C8: every status trace the job runner can produce moves strictly
forward in the order PENDING, SCRAPING, PARSING, COMPLETED (the spec names
SCRAPING and PARSING as CRAWLING and EXTRACTING), with FAILED entered only
from a non-terminal state and no transition out of COMPLETED or FAILED. -/
theorem c8_forward_transitions (env : JobEnv) :
    chainForward (runJobTrace env) = true := by
  obtain ⟨f, cs, sc, cr, cp, pr, csg, cc, fu⟩ := env
  cases f <;> cases cs <;> cases sc <;> cases cr <;> cases cp <;> cases pr <;>
    cases csg <;> cases cc <;> cases fu <;> rfl

/-- C5 counterexample: a subscriber joining after the job has logged three
events and the terminal sentinel receives all four messages in the replay
— the terminal sentinel is delivered last — yet the stream does not close
(the loop then waits on the queue, yielding heartbeats), contradicting the
claim that the stream terminates immediately after delivering a terminal
sentinel. -/
theorem c5_counterexample :
    (subscribe_stream ["a", "b", "c", "DONE"] []).1.getLast? = some (sse "DONE") ∧
    (subscribe_stream ["a", "b", "c", "DONE"] []).2 = false := by
  exact ⟨rfl, rfl⟩

/-- The subscribe loop closes the stream exactly when a live (queued)
message is terminal. -/
theorem live_until_terminal_closed (live : List String) :
    (live_until_terminal live).2 = live.any is_terminal := by
  induction live with
  | nil => rfl
  | cons m ms ih =>
    by_cases hm : is_terminal m = true
    · simp [live_until_terminal, hm]
    · simp only [live_until_terminal, List.any_cons]
      rw [if_neg (by simpa using hm)]
      simp [Bool.eq_false_iff.mpr, ih]
      simp at hm
      simp [hm]

/-- C5 amended: the stream closes exactly when a terminal sentinel arrives
as a live message after subscription; a subscriber joining before the
terminal event receives the replay followed by the terminal message and
the stream closes, while a subscriber joining after it receives the same
messages from the replay and the stream stays open (heartbeats follow). -/
theorem c5_terminal_semantics (prior live : List String) (t : String)
    (ht : is_terminal t = true) :
    (subscribe_stream prior live).2 = live.any is_terminal
    ∧ subscribe_stream prior [t] = (prior.map sse ++ [sse t], true)
    ∧ subscribe_stream (prior ++ [t]) [] = ((prior ++ [t]).map sse, false) := by
  refine ⟨live_until_terminal_closed live, ?_, ?_⟩
  · simp [subscribe_stream, live_until_terminal, ht]
  · simp [subscribe_stream, live_until_terminal]

/-- C5 witness: a subscriber who joined before completion, with three
prior events and the DONE sentinel arriving live, receives the three
events then the terminal event and the stream closes. -/
theorem c5_witness :
    subscribe_stream ["a", "b", "c"] ["DONE"] =
      ([sse "a", sse "b", sse "c", sse "DONE"], true) :=
  (c5_terminal_semantics ["a", "b", "c"] [] "DONE" (by decide)).2.1

/-- Processing one batch grows the visited set by at most the number of
batch results. -/
theorem process_batch_visited_le (rs : List ScrapeResult) (v q : List String)
    (res : List ScrapeResult) :
    (process_batch rs v q res).1.length ≤ v.length + rs.length := by
  induction rs generalizing v q res with
  | nil => simp [process_batch]
  | cons r rs ih =>
    simp only [process_batch]
    have hv : (if r.url ∈ v then v else v ++ [r.url]).length ≤ v.length + 1 := by
      split <;> simp
    cases hr : r.error with
    | none =>
      calc (process_batch rs _ _ _).1.length
          ≤ _ + rs.length := ih _ _ _
        _ ≤ v.length + 1 + rs.length := by exact Nat.add_le_add_right hv _
        _ = v.length + (rs.length + 1) := by omega
    | some e =>
      calc (process_batch rs _ _ _).1.length
          ≤ _ + rs.length := ih _ _ _
        _ ≤ v.length + 1 + rs.length := by exact Nat.add_le_add_right hv _
        _ = v.length + (rs.length + 1) := by omega

/-- Loop invariant for the crawl bound: the final visited set never
exceeds the larger of its current size and max_pages + 2, since the loop
is entered only below max_pages and one batch adds at most three URLs. -/
theorem scrape_docs_loop_visited_le (fetch : FetchFn) (mp : Nat) (fuel : Nat)
    (v q : List String) (res : List ScrapeResult) :
    (scrape_docs_loop fetch mp fuel v q res).1.length ≤ max v.length (mp + 2) := by
  induction fuel generalizing v q res with
  | zero => exact le_max_left _ _
  | succ fuel ih =>
    rw [scrape_docs_loop]
    split
    · next h =>
      refine le_trans (ih _ _ _)
        (max_le (le_trans ?_ (le_max_right _ _)) (le_max_right _ _))
      refine le_trans (process_batch_visited_le _ _ _ _) ?_
      rw [List.length_map]
      have h1 : ((q.take 3).filter (fun u => decide (u ∉ v))).length ≤ 3 :=
        le_trans (List.length_filter_le _ _)
          (by rw [List.length_take]; exact Nat.min_le_left _ _)
      have h2 : v.length < mp := h.2
      omega
    · exact le_max_left _ _

/-- C3 amended: the set of distinct URLs visited by a crawl has
cardinality at most maxPages + 2.  The loop checks the budget before
draining a batch of up to three URLs, so the final batch may overshoot the
budget by up to two. -/
theorem c3_visited_bound (fetch : FetchFn) (base_url : String) (mp fuel : Nat) :
    (scrape_docs fetch base_url mp fuel).1.length ≤ mp + 2 := by
  have h := scrape_docs_loop_visited_le fetch mp fuel [] [base_url] []
  simpa [scrape_docs] using h

/-- A seed page with three same-site children. -/
def fetchC3 : FetchFn := fun u =>
  if u = "s" then Sum.inl ("", ["c1", "c2", "c3"]) else Sum.inl ("", [])

/-- C3 counterexample: with maxPages = 2 and a seed page carrying three
links, the crawl visits four distinct URLs — the budget check happens
before each batch of three, so |visited| = 4 > maxPages, contradicting the
claimed bound |visited| ≤ maxPages. -/
theorem c3_counterexample :
    ¬((scrape_docs fetchC3 "s" 2 10).1.length ≤ 2) := by decide

/-- Folding endpoints with the identity-checked append, starting from the
empty list: the deduplication the merge claims. -/
def dedup_by_identity (eps : List Endpoint) : List Endpoint :=
  eps.foldl insert_endpoint []

/-- Distinct (path, method) identity. -/
def diffKey (a b : Endpoint) : Prop := ¬(a.path = b.path ∧ a.method = b.method)

/-- The identity-checked append preserves pairwise-distinct identities. -/
theorem pairwise_foldl_insert (l : List Endpoint) (acc : List Endpoint)
    (h : acc.Pairwise diffKey) : (l.foldl insert_endpoint acc).Pairwise diffKey := by
  induction l generalizing acc with
  | nil => exact h
  | cons e l ih =>
    simp only [List.foldl_cons]
    refine ih _ ?_
    unfold insert_endpoint
    split
    · exact h
    · next hany =>
      rw [List.pairwise_append]
      refine ⟨h, List.pairwise_singleton _ _, ?_⟩
      intro a ha b hb
      rw [List.mem_singleton] at hb
      subst hb
      intro hk
      exact hany (List.any_eq_true.mpr ⟨a, ha, by simp [hk.1, hk.2]⟩)

/-- The merge loop over the tail schemas folds their concatenated endpoint
lists through the identity-checked append, first chunk metadata kept. -/
theorem merge_schemas_cons (s0 : APISchema) (rest : List APISchema) :
    merge_schemas (s0 :: rest) =
      { s0 with endpoints :=
          ((rest.map (fun s => s.endpoints)).flatten).foldl insert_endpoint s0.endpoints } := by
  suffices h : ∀ (l : List APISchema) (m : APISchema),
      l.foldl (fun m s => { m with endpoints := s.endpoints.foldl insert_endpoint m.endpoints }) m =
        { m with endpoints := ((l.map (fun s => s.endpoints)).flatten).foldl insert_endpoint m.endpoints } by
    exact h rest s0
  intro l
  induction l with
  | nil => intro m; rfl
  | cons s l ih =>
    intro m
    simp only [List.foldl_cons, List.map_cons, List.flatten_cons]
    rw [ih]
    simp [List.foldl_append]

/-- C1 amended: provided the first chunk result's endpoint list already
has pairwise-distinct (path, method) identities, the merged schema is the
first chunk with its endpoint list replaced by the first-occurrence-wins
deduplication of all chunks' endpoints in order — so the merged list has
no two entries sharing (path, method) and the first chunk's top-level
metadata is authoritative.  (The claim as stated fails because the merge
never deduplicates inside the first chunk result.) -/
theorem c1_merge_dedup (s0 : APISchema) (rest : List APISchema)
    (h0 : dedup_by_identity s0.endpoints = s0.endpoints) :
    merge_schemas (s0 :: rest) =
      { s0 with endpoints :=
          dedup_by_identity (s0.endpoints ++ (rest.map (fun s => s.endpoints)).flatten) }
    ∧ (merge_schemas (s0 :: rest)).endpoints.Pairwise diffKey := by
  have hmain : merge_schemas (s0 :: rest) =
      { s0 with endpoints :=
          dedup_by_identity (s0.endpoints ++ (rest.map (fun s => s.endpoints)).flatten) } := by
    rw [merge_schemas_cons]
    unfold dedup_by_identity
    rw [List.foldl_append]
    rw [show s0.endpoints.foldl insert_endpoint [] = s0.endpoints from h0]
  refine ⟨hmain, ?_⟩
  rw [merge_schemas_cons]
  exact pairwise_foldl_insert _ _ (h0 ▸ pairwise_foldl_insert _ [] List.Pairwise.nil)

/-- C1 witness: the amended merge on concrete chunks — two chunks each
reporting /a GET, the second also /b POST — yields exactly the two
distinct endpoints, first chunk metadata kept. -/
theorem c1_witness :
    ((merge_schemas [{ api_name := "A", endpoints := [{ path := "/a", method := "GET" }] },
      { api_name := "B", endpoints := [{ path := "/a", method := "GET" },
        { path := "/b", method := "POST" }] }]).endpoints.map
          (fun e => (e.path, e.method)) = [("/a", "GET"), ("/b", "POST")])
    ∧ (merge_schemas [{ api_name := "A", endpoints := [{ path := "/a", method := "GET" }] },
      { api_name := "B", endpoints := [{ path := "/a", method := "GET" },
        { path := "/b", method := "POST" }] }]).api_name = "A" := by
  have h := c1_merge_dedup
    { api_name := "A", endpoints := [{ path := "/a", method := "GET" }] }
    [{ api_name := "B", endpoints := [{ path := "/a", method := "GET" },
      { path := "/b", method := "POST" }] }]
    (by rfl)
  rw [h.1]
  exact ⟨rfl, rfl⟩

/-- C1 counterexample: a single chunk whose endpoint list repeats the same
(path, method) passes through the merge unchanged, so the merged schema
contains two entries with the same identity, contradicting the claimed
invariant for every input list. -/
theorem c1_counterexample :
    ((merge_schemas [{ endpoints := [{ path := "/a", method := "GET" },
        { path := "/a", method := "GET" }] }]).endpoints.map
          (fun e => (e.path, e.method)) = [("/a", "GET"), ("/a", "GET")])
    ∧ ¬ (merge_schemas [{ endpoints := [{ path := "/a", method := "GET" },
        { path := "/a", method := "GET" }] }]).endpoints.Pairwise diffKey := by
  constructor
  · rfl
  · intro hp
    rw [show (merge_schemas [{ endpoints := [{ path := "/a", method := "GET" },
        { path := "/a", method := "GET" }] }]).endpoints =
        [{ path := "/a", method := "GET" }, { path := "/a", method := "GET" }] from rfl] at hp
    have := List.rel_of_pairwise_cons hp (List.mem_singleton.mpr rfl)
    exact this ⟨rfl, rfl⟩

/-- C7: for non-negative recorded timestamps, the limiter denies exactly
when the number of entries still inside the window (strictly newer than
now minus the window), counted before recording the new attempt, is at or
above the limit; a denial reports the full window as retry-after, an
admission reports zero, and an unreachable counter store fails open as
(allowed, 0). -/
theorem c7_rate_limit (entries : List Int) (now : Int) (limit : Nat)
    (window_seconds : Int) (hpos : ∀ t ∈ entries, 0 ≤ t) :
    (check_rate_limit none now limit window_seconds = ((true, 0), none))
    ∧ (((check_rate_limit (some entries) now limit window_seconds).1.1 = false) ↔
        limit ≤ (entries.filter (fun t => now - window_seconds < t)).length)
    ∧ ((check_rate_limit (some entries) now limit window_seconds).1.1 = false →
        (check_rate_limit (some entries) now limit window_seconds).1.2 = window_seconds)
    ∧ ((check_rate_limit (some entries) now limit window_seconds).1.1 = true →
        (check_rate_limit (some entries) now limit window_seconds).1.2 = 0) := by
  have hfilter : entries.filter (fun t => ¬(0 ≤ t ∧ t ≤ now - window_seconds)) =
      entries.filter (fun t => now - window_seconds < t) := by
    refine List.filter_congr ?_
    intro t ht
    have h0 := hpos t ht
    simp only [decide_eq_decide]
    omega
  refine ⟨rfl, ?_, ?_, ?_⟩
  · simp only [check_rate_limit, hfilter]
    split
    · next hge => simp [ge_iff_le.mp hge]
    · next hlt => simp [by simpa using hlt]
  · simp only [check_rate_limit, hfilter]
    split
    · intro _; rfl
    · intro h; exact absurd h (by simp)
  · simp only [check_rate_limit, hfilter]
    split
    · intro h; exact absurd h (by simp)
    · intro _; rfl

/-- C7 witness: with limit 10 and window 3600, ten prior attempts inside
the window deny the eleventh call with retry-after 3600; once the window
has fully elapsed past all recorded attempts the next call is allowed; and
a failed store is allowed with retry-after 0. -/
theorem c7_witness :
    ((check_rate_limit (some [1, 2, 3, 4, 5, 6, 7, 8, 9, 10]) 11 10 3600).1.1 = false)
    ∧ ((check_rate_limit (some [1, 2, 3, 4, 5, 6, 7, 8, 9, 10]) 11 10 3600).1.2 = 3600)
    ∧ ((check_rate_limit (some [1, 2, 3, 4, 5, 6, 7, 8, 9, 10]) 3611 10 3600).1.1 = true)
    ∧ (check_rate_limit none 11 10 3600 = ((true, 0), none)) := by
  have h1 := c7_rate_limit [1, 2, 3, 4, 5, 6, 7, 8, 9, 10] 11 10 3600 (by decide)
  have h2 := c7_rate_limit [1, 2, 3, 4, 5, 6, 7, 8, 9, 10] 3611 10 3600 (by decide)
  refine ⟨h1.2.1.mpr (by decide), ?_, ?_, h1.1⟩
  · exact h1.2.2.1 (h1.2.1.mpr (by decide))
  · cases hb : (check_rate_limit (some [1, 2, 3, 4, 5, 6, 7, 8, 9, 10]) 3611 10 3600).1.1 with
    | true => rfl
    | false => exact absurd (h2.2.1.mp hb) (by decide)

/-- Keyword hit: some word of the list occurs in the lowered use case. -/
def kwAny (u : String) (ws : List String) : Bool :=
  ws.any (fun w => containsSub u w)

/-- detect_language restated through kwAny (definitional). -/
theorem detect_language_eq (u : String) :
    detect_language u =
      (if kwAny u ["python", "django", "flask", "fastapi"] then some "python"
       else if kwAny u ["javascript", "typescript", "node", "react", "next", "js", "ts"] then
         some "typescript"
       else if kwAny u ["go", "golang"] then some "go"
       else if kwAny u ["java", "spring"] then some "java"
       else none) := rfl

/-- Language detection yields one of five results. -/
theorem detect_language_cases (u : String) :
    detect_language u = none ∨ detect_language u = some "python" ∨
      detect_language u = some "typescript" ∨ detect_language u = some "go" ∨
      detect_language u = some "java" := by
  rw [detect_language_eq]
  split
  · exact Or.inr (Or.inl rfl)
  · split
    · exact Or.inr (Or.inr (Or.inl rfl))
    · split
      · exact Or.inr (Or.inr (Or.inr (Or.inl rfl)))
      · split
        · exact Or.inr (Or.inr (Or.inr (Or.inr rfl)))
        · exact Or.inl rfl

/-- When no language is detected, the typescript keyword is absent (it
would have triggered the second category). -/
theorem detect_none_no_ts (u : String) (h : detect_language u = none) :
    containsSub u "typescript" = false := by
  rw [detect_language_eq] at h
  by_cases h1 : kwAny u ["python", "django", "flask", "fastapi"] = true
  · rw [if_pos h1] at h; exact absurd h (by simp)
  · rw [if_neg h1] at h
    by_cases h2 : kwAny u ["javascript", "typescript", "node", "react", "next", "js", "ts"] = true
    · rw [if_pos h2] at h; exact absurd h (by simp)
    · have := (by simpa [kwAny] using h2 :
        ¬(containsSub u "javascript" = true ∨ containsSub u "typescript" = true ∨
          containsSub u "node" = true ∨ containsSub u "react" = true ∨
          containsSub u "next" = true ∨ containsSub u "js" = true ∨
          containsSub u "ts" = true))
      simpa using fun hc => this (Or.inr (Or.inl hc))

/-- C9 amended: the advisor always appends the raw-REST fallback last and
never marks it recommended; when no language is detected the output is
exactly a recommended Python suggestion, an unmarked JavaScript
suggestion, and the REST fallback; when Python or TypeScript is detected
only that language's (recommended) suggestion precedes the fallback; and
when Go or Java is detected that language's suggestion is prepended and
marked recommended while the Python and TypeScript suggestions are
omitted.  (The claim as stated fails: a detected Go or Java drops the
Python/TS suggestions instead of keeping them unmarked.) -/
theorem c9_advisor (api_schema : APISchema) (use_case : String) :
    ((suggest_integration_paths api_schema use_case).map
        (fun x => (x.approach, x.is_recommended))).getLast? =
      some ("Direct REST calls", false)
    ∧ (detect_language (pyLower use_case) = none →
        (suggest_integration_paths api_schema use_case).map
            (fun x => (x.language, x.is_recommended)) =
          [("Python", true), ("JavaScript", false), ("Any", false)])
    ∧ (detect_language (pyLower use_case) = some "python" →
        (suggest_integration_paths api_schema use_case).map
            (fun x => (x.language, x.is_recommended)) = [("Python", true), ("Any", false)])
    ∧ (detect_language (pyLower use_case) = some "typescript" →
        (suggest_integration_paths api_schema use_case).map
            (fun x => (x.language, x.is_recommended)) =
          [((if containsSub (pyLower use_case) "typescript" then "TypeScript"
             else "JavaScript"), true), ("Any", false)])
    ∧ (detect_language (pyLower use_case) = some "go" →
        (suggest_integration_paths api_schema use_case).map
            (fun x => (x.language, x.is_recommended)) = [("Go", true), ("Any", false)])
    ∧ (detect_language (pyLower use_case) = some "java" →
        (suggest_integration_paths api_schema use_case).map
            (fun x => (x.language, x.is_recommended)) = [("Java", true), ("Any", false)]) := by
  refine ⟨?_, ?_, ?_, ?_, ?_, ?_⟩
  · rcases detect_language_cases (pyLower use_case) with h | h | h | h | h <;>
      simp [suggest_integration_paths, h]
  · intro h
    simp [suggest_integration_paths, h, detect_none_no_ts _ h]
  · intro h
    simp [suggest_integration_paths, h]
  · intro h
    simp [suggest_integration_paths, h]
  · intro h
    simp [suggest_integration_paths, h, pyTitle, pyTitleGo]
  · intro h
    simp [suggest_integration_paths, h, pyTitle, pyTitleGo]

/-- C9 witness: with an empty use case no language is detected and the
advisor output is exactly the recommended Python suggestion, the unmarked
JavaScript suggestion, and the unmarked REST fallback. -/
theorem c9_witness :
    (suggest_integration_paths {} "").map (fun x => (x.language, x.is_recommended)) =
      [("Python", true), ("JavaScript", false), ("Any", false)] :=
  (c9_advisor {} "").2.1 (by decide)

/-- C9 counterexample: for the use case golang the advisor detects Go and
returns only the recommended Go suggestion and the REST fallback — no
Python suggestion and no TypeScript/JavaScript suggestion is included,
contradicting the claim that those are always present. -/
theorem c9_counterexample :
    ((suggest_integration_paths {} "golang").map
        (fun x => (x.language, x.is_recommended)) = [("Go", true), ("Any", false)])
    ∧ (((suggest_integration_paths {} "golang").map (fun x => x.language)).all
        (fun l => l ≠ "Python" ∧ l ≠ "JavaScript" ∧ l ≠ "TypeScript") = true) := by
  exact ⟨by decide, by decide⟩

/-- A String.mk value is the empty string exactly when its character list
is empty. -/
theorem mk_eq_empty (l : List Char) : String.mk l = "" ↔ l = [] := by
  constructor
  · intro h
    have := congrArg String.data h
    simpa using this
  · intro h
    subst h
    rfl

/-- Stripping the query leaves no query: the clean link has no question
mark at all. -/
theorem query_stripQuery (s : String) : queryOf (stripQuery s) = "" := by
  rw [queryOf, stripQuery, mk_eq_empty]
  have hall : ∀ x ∈ ((s.data.takeWhile (fun c => c ≠ '?')).takeWhile
      (fun c => c ≠ '#')), (fun c => decide (c ≠ '?')) x = true := by
    intro x hx
    have hx2 : x ∈ s.data.takeWhile (fun c => decide (c ≠ '?')) :=
      (List.takeWhile_sublist _).subset hx
    simpa using List.mem_takeWhile_imp hx2
  rw [List.dropWhile_eq_nil_iff.mpr hall]
  rfl

/-- The core list fact behind fragment preservation: when the hash, if
present, is the last character, the pre-query prefix also has the hash, if
present, as its last character. -/
theorem frag_take_aux (cs : List Char)
    (h : (cs.dropWhile (fun c => c ≠ '#')).tail = []) :
    ((cs.takeWhile (fun c => c ≠ '?')).dropWhile (fun c => c ≠ '#')).tail = [] := by
  induction cs with
  | nil => simp
  | cons c cs ih =>
    by_cases hc : c = '#'
    · subst hc
      rw [List.dropWhile_cons_of_neg (by simp)] at h
      simp only [List.tail_cons] at h
      subst h
      simp
    · by_cases hq : c = '?'
      · subst hq
        rw [List.takeWhile_cons_of_neg (by simp)]
        simp
      · rw [List.dropWhile_cons_of_pos (by simpa using hc)] at h
        rw [List.takeWhile_cons_of_pos (by simpa using hq),
          List.dropWhile_cons_of_pos (by simpa using hc)]
        exact ih h

/-- A link with an empty fragment keeps an empty fragment after its query
is stripped. -/
theorem frag_stripQuery (s : String) (h : fragmentOf s = "") :
    fragmentOf (stripQuery s) = "" := by
  rw [fragmentOf, mk_eq_empty] at h
  rw [fragmentOf, stripQuery, mk_eq_empty]
  exact frag_take_aux s.data h

/-- A returned outbound link is well-formed: empty fragment, empty query,
not the page itself, and obtained by query-stripping some anchor target
that resolved to the page's domain with an empty fragment. -/
def goodLink (url : String) (hrefs0 : List String) (c : String) : Prop :=
  fragmentOf c = "" ∧ queryOf c = "" ∧ c ≠ url ∧
    ∃ h0 ∈ hrefs0, fragmentOf h0 = "" ∧ netlocOf h0 = netlocOf url ∧ c = stripQuery h0

/-- Invariant of the link-extraction fold: no duplicates and every
accumulated link is well-formed. -/
theorem link_fold_inv (url : String) (hrefs0 : List String) :
    ∀ (hrefs : List String) (acc : List String),
      (∀ x ∈ hrefs, x ∈ hrefs0) →
      acc.Nodup → (∀ c ∈ acc, goodLink url hrefs0 c) →
      (hrefs.foldl (link_step url) acc).Nodup
        ∧ ∀ c ∈ hrefs.foldl (link_step url) acc, goodLink url hrefs0 c := by
  intro hrefs
  induction hrefs with
  | nil => exact fun acc _ hnd hgood => ⟨hnd, hgood⟩
  | cons h hs ih =>
    intro acc hsub hnd hgood
    rw [List.foldl_cons]
    have hsub' : ∀ x ∈ hs, x ∈ hrefs0 := fun x hx => hsub x (List.mem_cons_of_mem _ hx)
    unfold link_step
    by_cases hc1 : (netlocOf h = netlocOf url && fragmentOf h = "") = true
    · rw [if_pos hc1]
      simp only [Bool.and_eq_true, decide_eq_true_eq] at hc1
      by_cases hc2 : stripQuery h ≠ url ∧ stripQuery h ∉ acc
      · rw [if_pos hc2]
        refine ih _ hsub' ?_ ?_
        · rw [List.nodup_append]
          exact ⟨hnd, List.nodup_singleton _, by simpa using hc2.2⟩
        · intro c hc
          rcases List.mem_append.mp hc with hcl | hcr
          · exact hgood c hcl
          · rw [List.mem_singleton] at hcr
            subst hcr
            exact ⟨frag_stripQuery h hc1.2, query_stripQuery h, hc2.1,
              h, hsub h (List.mem_cons_self _ _), hc1.2, hc1.1, rfl⟩
      · rw [if_neg hc2]
        exact ih _ hsub' hnd hgood
    · rw [if_neg hc1]
      exact ih _ hsub' hnd hgood

/-- C10: every anchor whose resolved URL has a non-empty fragment is
excluded entirely (each returned link arises by query-stripping an
empty-fragment same-domain anchor, never by stripping a fragment), every
returned outbound link has an empty fragment and an empty query string,
and the returned list has no duplicates. -/
theorem c10_link_extraction (url : String) (hrefs : List String) :
    (extract_child_urls url hrefs).Nodup
    ∧ ∀ c ∈ extract_child_urls url hrefs, goodLink url hrefs c := by
  exact link_fold_inv url hrefs hrefs [] (fun x hx => hx) List.nodup_nil (by simp)

/-- C10 witness: on a concrete page, an anchor with a fragment is dropped,
queries are stripped, duplicates and off-site links are skipped; the one
returned link has empty fragment and query. -/
theorem c10_witness :
    (extract_child_urls "http://h/a"
      ["http://h/x?q=1#f", "http://h/y?q=2", "http://h/y?q=3", "http://other/z"]).Nodup
    ∧ fragmentOf "http://h/y" = "" ∧ queryOf "http://h/y" = "" := by
  have h := c10_link_extraction "http://h/a"
    ["http://h/x?q=1#f", "http://h/y?q=2", "http://h/y?q=3", "http://other/z"]
  have hmem : "http://h/y" ∈ extract_child_urls "http://h/a"
      ["http://h/x?q=1#f", "http://h/y?q=2", "http://h/y?q=3", "http://other/z"] := by decide
  have hg := h.2 _ hmem
  exact ⟨h.1, hg.1, hg.2.1⟩

/-- The latest-row fold never loses a row once it holds one. -/
theorem foldl_latestOf_some_ne_none (l : List Project) (q : Project) :
    l.foldl latestOf (some q) ≠ none := by
  induction l generalizing q with
  | nil => simp
  | cons p l ih =>
    rw [List.foldl_cons]
    show l.foldl latestOf (if q.created_at < p.created_at then some p else some q) ≠ none
    split
    · exact ih p
    · exact ih q

/-- The cache query comes back empty exactly when no row is eligible. -/
theorem cacheLookup_eq_none_iff (db : List Project) (b : String) (now : Int) :
    cacheLookup db b now = none ↔ db.filter (cacheEligible b now) = [] := by
  constructor
  · intro h
    cases hf : db.filter (cacheEligible b now) with
    | nil => rfl
    | cons p l =>
      rw [cacheLookup, hf] at h
      exact absurd h (foldl_latestOf_some_ne_none l p)
  · intro h
    rw [cacheLookup, h]
    rfl

/-- On a cache miss (or a forced refresh) create_project appends a fresh
PENDING row created now and returns it. -/
theorem create_project_fresh (db : List Project) (payload : ProjectCreate)
    (now : Int) (fresh_id : Nat)
    (h : cacheLookup db (normalize_base_url payload.url) now = none) :
    create_project db payload now fresh_id =
      ({ id := fresh_id, name := payload.name,
         base_url := normalize_base_url payload.url,
         use_case := payload.use_case, created_at := now },
       db ++ [{ id := fresh_id, name := payload.name,
                base_url := normalize_base_url payload.url,
                use_case := payload.use_case, created_at := now }]) := by
  rcases hf : payload.force_refresh with _ | _ <;>
    simp [create_project, hf, h]

/-- A status update on an appended row leaves unrelated ids untouched. -/
theorem set_status_append (db : List Project) (p1 : Project)
    (st : ProjectStatus) (h : ∀ q ∈ db, q.id ≠ p1.id) :
    set_status (db ++ [p1]) p1.id st = db ++ [{ p1 with status := st }] := by
  unfold set_status
  rw [List.map_append]
  congr 1
  · have hcongr : ∀ q ∈ db,
        (if q.id = p1.id then { q with status := st } else q) = id q :=
      fun q hq => by rw [if_neg (h q hq)]; rfl
    rw [List.map_congr_left hcongr, List.map_id]
  · simp

/-- C6: once the first call's job — freshly created for its normalized
base URL — has been marked COMPLETED, a second job-creation call with the
same normalized base URL within 24 hours and without forced refresh
returns that same job row (same id, status, creation time and base URL),
updates only its display fields name and use_case, and appends no new row
to the database. -/
theorem c6_cache_reuse (db db1 db2 db3 : List Project) (p1 p2 : Project)
    (pay1 pay2 : ProjectCreate) (now1 now2 : Int) (id1 id2 : Nat)
    (hmiss : cacheLookup db (normalize_base_url pay1.url) now1 = none)
    (hfresh : ∀ q ∈ db, q.id ≠ id1)
    (hsame : normalize_base_url pay2.url = normalize_base_url pay1.url)
    (hforce : pay2.force_refresh = false)
    (h12 : now1 ≤ now2) (h24 : now2 - 86400 ≤ now1)
    (hr1 : create_project db pay1 now1 id1 = (p1, db1))
    (hdb2 : set_status db1 p1.id ProjectStatus.COMPLETED = db2)
    (hr2 : create_project db2 pay2 now2 id2 = (p2, db3)) :
    p2.id = id1 ∧ p2.status = ProjectStatus.COMPLETED ∧ p2.created_at = now1 ∧
      p2.base_url = normalize_base_url pay1.url ∧ p2.name = pay2.name ∧
      p2.use_case = pay2.use_case ∧ db3.length = db2.length := by
  rw [create_project_fresh db pay1 now1 id1 hmiss] at hr1
  have hp1 : p1 = { id := id1, name := pay1.name,
                    base_url := normalize_base_url pay1.url,
                    use_case := pay1.use_case, created_at := now1 } := by
    have := congrArg Prod.fst hr1
    exact this.symm
  have hdb1 : db1 = db ++ [p1] := by
    have := congrArg Prod.snd hr1
    rw [hp1]
    exact this.symm
  have hid1 : p1.id = id1 := by rw [hp1]
  have hdb2' : db2 = db ++ [{ p1 with status := ProjectStatus.COMPLETED }] := by
    rw [← hdb2, hdb1]
    exact set_status_append db p1 ProjectStatus.COMPLETED
      (fun q hq => hid1 ▸ hfresh q hq)
  have hempty : ∀ q ∈ db,
      cacheEligible (normalize_base_url pay1.url) now2 q = false := by
    have h0 := (cacheLookup_eq_none_iff db _ now1).mp hmiss
    have h1 := List.filter_eq_nil_iff.mp h0
    intro q hq
    have h2 := h1 q hq
    rw [Bool.eq_false_iff]
    intro hc
    apply h2
    simp only [cacheEligible, Bool.and_eq_true, decide_eq_true_eq] at hc ⊢
    exact ⟨⟨hc.1.1, hc.1.2⟩, by omega⟩
  have helig : cacheEligible (normalize_base_url pay1.url) now2
      { p1 with status := ProjectStatus.COMPLETED } = true := by
    rw [hp1]
    simp [cacheEligible, h24]
  have hlook : cacheLookup db2 (normalize_base_url pay2.url) now2 =
      some { p1 with status := ProjectStatus.COMPLETED } := by
    rw [hsame, hdb2', cacheLookup, List.filter_append,
      List.filter_eq_nil_iff.mpr (by
        intro q hq
        rw [hempty q hq]
        simp)]
    rw [show List.filter (cacheEligible (normalize_base_url pay1.url) now2)
        [{ p1 with status := ProjectStatus.COMPLETED }] =
        [{ p1 with status := ProjectStatus.COMPLETED }] from by
      rw [List.filter_cons_of_pos helig]; rfl]
    rfl
  have hr2' : create_project db2 pay2 now2 id2 =
      ({ { p1 with status := ProjectStatus.COMPLETED } with
          name := pay2.name, use_case := pay2.use_case },
        db2.map (fun p =>
          if p.id = ({ p1 with status := ProjectStatus.COMPLETED } : Project).id then
            { { p1 with status := ProjectStatus.COMPLETED } with
                name := pay2.name, use_case := pay2.use_case }
          else p)) := by
    simp [create_project, hforce, hlook]
  rw [hr2'] at hr2
  injection hr2 with hp2 hdb3
  subst hp2
  subst hdb3
  refine ⟨hid1, rfl, ?_, ?_, rfl, rfl, List.length_map _ _⟩
  · show p1.created_at = now1
    rw [hp1]
  · show p1.base_url = normalize_base_url pay1.url
    rw [hp1]

/-- First job-creation payload of the C6 scenario. -/
def c6pay1 : ProjectCreate :=
  { url := "http://a/x", name := "n1", use_case := "u1", force_refresh := false }

/-- Second job-creation payload of the C6 scenario: same host, different
path and display fields, no forced refresh. -/
def c6pay2 : ProjectCreate :=
  { url := "http://a/y", name := "n2", use_case := "u2", force_refresh := false }

/-- The first call of the C6 scenario, at time 0 on an empty database. -/
def c6r1 : Project × List Project := create_project [] c6pay1 0 1

/-- The database after the first job completes. -/
def c6db2 : List Project :=
  set_status c6r1.2 c6r1.1.id ProjectStatus.COMPLETED

/-- The second call of the C6 scenario, one hour later. -/
def c6r2 : Project × List Project := create_project c6db2 c6pay2 3600 2

/-- C6 witness: in the concrete two-call scenario the second call returns
job 1, completed, and the database gains no row. -/
theorem c6_witness :
    c6r2.1.id = 1 ∧ c6r2.1.status = ProjectStatus.COMPLETED ∧
      c6r2.1.name = "n2" ∧ c6r2.2.length = c6db2.length := by
  have h := c6_cache_reuse [] c6r1.2 c6db2 c6r2.2 c6r1.1 c6r2.1 c6pay1 c6pay2
    0 3600 1 2 rfl (by simp) (by decide) rfl (by decide) (by decide)
    rfl rfl rfl
  exact ⟨h.1, h.2.1, h.2.2.2.2.1, h.2.2.2.2.2.2⟩

end SmartDevtool
